import Mathlib

/-!
Verification of the news-aggregation pipeline of the VFT repository
(`src/vhembe-financial-times/newsService.ts`).

The TypeScript module is shallowly embedded below.  Pure helpers
(`getFallbackImage`, `analyzeSentiment`, `checkForBreakingContext`, the
summary-cleanup chain, image extraction, the id derivation) are translated
directly into Lean functions over `String` / `List Char`.  Effects are made
explicit:

* the network, the rss2json proxy and `JSON.parse` of each feed response are
  an oracle `Env.outcome : FeedConfig → FetchOutcome` (a `.fail` outcome is a
  rejected promise, caught by the per-source `.catch`);
* `new Date(s).getTime()` is the oracle `Env.parseDate : String → Option Int`
  (`none` encodes `NaN`, the value produced by an unparseable date);
* `Date.now()` is `Env.now`; the locale-dependent `formatTime` rendering is
  the opaque `Env.fmt : Option Int → String`;
* `localStorage` is a `Storage` value threaded through the pipeline
  (`corrupt` is a stored string that `JSON.parse` rejects), and the success
  of `localStorage.setItem` is the oracle `Env.writeOk : List Article → Bool`
  (quota errors depend on the serialized size, outside the model);
* a thrown exception that escapes a `try` block is an `Except.error` /
  `Option.none` in the corresponding step function.

JavaScript coercions that the pipeline actually exercises are reproduced:
`x || y` on possibly-absent strings treats `undefined` and `""` as falsy
(`jsOr`, `jsOrS`), string interpolation of a missing field prints
`"undefined"` (`jsToStr`), and a `NaN` `publishedAt` fails the `>` retention
comparison (`withinRetention` is `false` on `none`).  `String.charCodeAt` is
`Char.toNat` and `toLowerCase` is ASCII `Char.toLower`; every string the
claims exercise is plain ASCII, where the two agree with JavaScript.
`Array.prototype.sort` with the numeric comparator
`(a, b) => b.publishedAt - a.publishedAt` is a stable sort, so its output is
uniquely determined; it is modelled by the stable insertion sort
`sortByRecency`.
-/

/-! ## Data model (`types.ts` and the feed configuration) -/

/-- `'Bullish' | 'Bearish' | 'Neutral'` from `NewsArticle.sentiment`. -/
inductive Sentiment where
  | Bullish
  | Bearish
  | Neutral
  deriving DecidableEq, Repr

/-- The `NewsArticle` record of `types.ts`, restricted to the fields the
pipeline writes (`liquidityLevels` is never produced by `newsService.ts`).
`publishedAt : Option Int` is the epoch-milliseconds number, with `none`
standing for JavaScript's `NaN` (the result of `getTime()` on an invalid
date). -/
structure Article where
  id : String
  headline : String
  summary : String
  category : String
  timestamp : String
  publishedAt : Option Int
  author : String
  imageUrl : Option String
  url : Option String
  fullContent : Option String
  isBreaking : Bool
  sentiment : Sentiment
  deriving DecidableEq, Repr

/-- The `publishedAt` number as used by the sort comparator.  The default is
irrelevant: the retention filter runs before the sort and removes every
article whose `publishedAt` is `none`. -/
def Article.publishedAtD (a : Article) : Int :=
  a.publishedAt.getD 0

/-- One entry of `FEED_SOURCES`. -/
structure FeedConfig where
  url : String
  category : String
  sourceName : String
  priority : Nat
  deriving DecidableEq, Repr

/-- The static `FEED_SOURCES` list of `newsService.ts`. -/
def FEED_SOURCES : List FeedConfig :=
  [⟨"https://www.forexlive.com/feed", "Sentiment", "ForexLive", 1⟩,
   ⟨"https://www.fxstreet.com/rss/news", "Squawk", "FXStreet", 2⟩,
   ⟨"https://feeds.finance.yahoo.com/rss/2.0/headline?s=EURUSD=X,GBPUSD=X,JPY=X,BTC-USD,GC=F",
    "Markets", "Yahoo Finance", 3⟩,
   ⟨"https://cointelegraph.com/rss", "Crypto", "CoinTelegraph", 4⟩]

/-- The persisted-archive key (`STORAGE_KEY`). -/
def STORAGE_KEY : String := "vhembe_news_archive_v2"

/-- `ONE_WEEK_MS = 7 * 24 * 60 * 60 * 1000`. -/
def ONE_WEEK_MS : Int := 7 * 24 * 60 * 60 * 1000

/-- The fixed placeholder palette `FALLBACK_IMAGES`. -/
def FALLBACK_IMAGES : List String :=
  ["https://images.unsplash.com/photo-1611974765270-ca1258634369?auto=format&fit=crop&q=80&w=1000",
   "https://images.unsplash.com/photo-1590283603385-17ffb3a7f29f?auto=format&fit=crop&q=80&w=1000",
   "https://images.unsplash.com/photo-1642543492481-44e81e3914a7?auto=format&fit=crop&q=80&w=1000",
   "https://images.unsplash.com/photo-1621504450168-38f647319680?auto=format&fit=crop&q=80&w=1000",
   "https://images.unsplash.com/photo-1614028674026-a65e31bfd27c?auto=format&fit=crop&q=80&w=1000",
   "https://images.unsplash.com/photo-1565514020176-dbf22384914e?auto=format&fit=crop&q=80&w=1000",
   "https://images.unsplash.com/photo-1526304640152-d4619684e484?auto=format&fit=crop&q=80&w=1000"]

/-! ## String machinery used by the normalizer and the classifier -/

/-- JavaScript `ToInt32`: reduce an exact integer to the signed 32-bit value
used by the `<<` operator. -/
def toInt32 (z : Int) : Int :=
  let m := z % 4294967296
  if m < 2147483648 then m else m - 4294967296

/-- One step of the loop in `getFallbackImage`:
`hash = seed.charCodeAt(i) + ((hash << 5) - hash)`.  In JavaScript
`hash << 5` coerces `hash` to 32 bits and wraps, while the remaining `+`/`-`
are exact (the values stay far below 2^53), hence
`toInt32 (h * 32) - h` with exact integer arithmetic. -/
def hashStep (h : Int) (c : Char) : Int :=
  (c.toNat : Int) + (toInt32 (h * 32) - h)

/-- The rolling hash accumulated over the seed by `getFallbackImage`. -/
def rollingHash (s : String) : Int :=
  s.toList.foldl hashStep 0

/-- `getFallbackImage` of `newsService.ts`:
`FALLBACK_IMAGES[Math.abs(hash) % FALLBACK_IMAGES.length]`.  The index is
always in range, so the `getD` default is never used. -/
def getFallbackImage (seed : String) : String :=
  FALLBACK_IMAGES.getD ((rollingHash seed).natAbs % FALLBACK_IMAGES.length) ""

/-- Does `needle` occur at the head of `hay`? -/
def leadMatch : List Char → List Char → Bool
  | [], _ => true
  | _ :: _, [] => false
  | c :: cs, d :: ds => c = d && leadMatch cs ds

/-- Does `needle` occur somewhere in `hay`?  (`String.prototype.includes`.) -/
def containsSeq (needle : List Char) : List Char → Bool
  | [] => leadMatch needle []
  | c :: rest => leadMatch needle (c :: rest) || containsSeq needle rest

/-- `hay.includes(needle)` for strings. -/
def strIncludes (hay needle : String) : Bool :=
  containsSeq needle.toList hay.toList

/-- `text.toLowerCase()`.  ASCII case mapping; every keyword and every string
exercised by the claims is ASCII. -/
def toLowerStr (s : String) : String :=
  String.mk (s.toList.map Char.toLower)

/-- The bullish keyword list of `analyzeSentiment`. -/
def bullishWords : List String :=
  ["soars", "jumps", "rallies", "gains", "bull", "buy", "support hold",
   "breakout", "higher", "hawkish", "beats", "positive", "upgrade", "surges",
   "records", "recovers", "record high"]

/-- The bearish keyword list of `analyzeSentiment`. -/
def bearishWords : List String :=
  ["plunges", "dives", "drops", "falls", "bear", "sell", "resistance",
   "breakdown", "lower", "dovish", "misses", "negative", "downgrade",
   "retreats", "crash", "sinks", "lows"]

/-- `analyzeSentiment`: lower-case the text, bullish substrings first, then
bearish, else neutral. -/
def analyzeSentiment (text : String) : Sentiment :=
  let t := toLowerStr text
  if bullishWords.any (fun w => strIncludes t w) then Sentiment.Bullish
  else if bearishWords.any (fun w => strIncludes t w) then Sentiment.Bearish
  else Sentiment.Neutral

/-- The high-impact keyword list of `checkForBreakingContext`. -/
def highImpactKeywords : List String :=
  ["fed ", "federal reserve", "fomc", "powell", "ecb", "lagarde", "boj",
   "ueda", "cpi", "nfp", "rate decision", "hike", "cut", "rates", "breaking",
   "urgent", "alert", "war", "invasion"]

/-- `checkForBreakingContext`: any high-impact keyword as a substring of the
lower-cased text. -/
def checkForBreakingContext (text : String) : Bool :=
  let t := toLowerStr text
  highImpactKeywords.any (fun k => strIncludes t k)

/-- The global replace `.replace(/<[^>]*>?/gm, '')` as a two-state scanner:
outside a tag characters are kept and `<` enters a tag; inside a tag every
character up to and including the next `>` is dropped (or to the end of the
input, matching the optional `>?`). -/
def stripTagsAux : Bool → List Char → List Char
  | _, [] => []
  | false, '<' :: rest => stripTagsAux true rest
  | false, c :: rest => c :: stripTagsAux false rest
  | true, '>' :: rest => stripTagsAux false rest
  | true, _ :: rest => stripTagsAux true rest

/-- The global replace `.replace(/&nbsp;/g, ' ')`: each non-overlapping
occurrence of the entity becomes one literal space. -/
def decodeNbsp : List Char → List Char
  | '&' :: 'n' :: 'b' :: 's' :: 'p' :: ';' :: rest => ' ' :: decodeNbsp rest
  | c :: rest => c :: decodeNbsp rest
  | [] => []

/-- The summary cleanup of the normalizer:
`item.description ? item.description.replace(/<[^>]*>?/gm, '').replace(/&nbsp;/g, ' ').slice(0, 250) + '...' : ''`.
Note the ternary tests truthiness (an empty description gives `''`) and the
`'...'` marker is appended unconditionally whenever a description is
present. -/
def summaryCleanOf : Option String → String
  | none => ""
  | some d =>
      if d = "" then ""
      else String.mk ((decodeNbsp (stripTagsAux false d.toList)).take 250) ++ "..."

/-- Capture of `([^"']*)` up to the closing `["']`; `none` when no quote
character follows (the regex then fails at this position). -/
def captureUntilQuote : List Char → List Char → Option String
  | [], _ => none
  | c :: rest, acc =>
      if c = '"' || c = '\'' then some (String.mk acc.reverse)
      else captureUntilQuote rest (c :: acc)

/-- Try the regex `src=["']([^"']*)["']` anchored at the head of the text. -/
def matchSrcAt : List Char → Option String
  | 's' :: 'r' :: 'c' :: '=' :: q :: rest =>
      if q = '"' || q = '\'' then captureUntilQuote rest [] else none
  | _ => none

/-- `text.match(/src=["']([^"']*)["']/)` returning the first capture: the
leftmost position where the whole pattern matches. -/
def findImgSrc : List Char → Option String
  | [] => none
  | c :: rest =>
      match matchSrcAt (c :: rest) with
      | some u => some u
      | none => findImgSrc rest

/-! ## Raw feed items, per-source fetch outcomes, storage, environment -/

/-- One raw item of a proxied feed payload.  Every provider-dependent field
is optional (`none` is the JavaScript `undefined`).  `enclosureLink` is
`item.enclosure?.link`. -/
structure RawItem where
  title : Option String
  description : Option String
  content : Option String
  pubDate : Option String
  link : Option String
  guid : Option String
  thumbnail : Option String
  enclosureLink : Option String
  author : Option String
  deriving DecidableEq, Repr

/-- Outcome of one source's `fetch(...).then(res => res.json())` chain.
`fail` is a rejected promise (network error or malformed JSON), handled by
the `.catch`; `ok status items` is a resolved JSON value, whose `status` and
`items` fields may themselves be absent (`data.items || []`). -/
inductive FetchOutcome where
  | fail
  | ok (status : Option String) (items : Option (List RawItem))
  deriving DecidableEq, Repr

/-- The record built by the promise chain for one source:
`{ status, items: data.items || [], config: src }`, or
`{ status: 'error', items: [], config: src }` from the `.catch`. -/
structure SettledFeed where
  status : Option String
  items : List RawItem
  config : FeedConfig
  deriving DecidableEq, Repr

/-- Settle one source's promise. -/
def settle : FetchOutcome → FeedConfig → SettledFeed
  | FetchOutcome.fail, c => ⟨some "error", [], c⟩
  | FetchOutcome.ok st its, c => ⟨st, its.getD [], c⟩

/-- The state of `localStorage` under `STORAGE_KEY`: no value, a value that
`JSON.parse` rejects, or a parsed article list. -/
inductive Storage where
  | absent
  | corrupt
  | stored (articles : List Article)
  deriving DecidableEq, Repr

/-- The one error the embedded pipeline can propagate: a `JSON.parse`
exception thrown inside the top-level `catch` block. -/
inductive JsError where
  | parseError
  deriving DecidableEq, Repr

/-- The ambient environment of one `fetchMarketNews()` call.  Field order:
`outcome` (per-source fetch result), `parseDate` (`new Date(s).getTime()`,
`none` for `NaN`), `now` (`Date.now()`), `fmt` (the locale-dependent
`formatTime`, applied to the parsed epoch), `writeOk` (whether
`localStorage.setItem` succeeds on a given list). -/
structure Env where
  outcome : FeedConfig → FetchOutcome
  parseDate : String → Option Int
  now : Int
  fmt : Option Int → String
  writeOk : List Article → Bool

/-! ## JavaScript coercions -/

/-- Truthiness of a possibly-absent string: `undefined` and `""` are falsy. -/
def truthy : Option String → Bool
  | none => false
  | some s => !(s == "")

/-- `a || b` on possibly-absent strings. -/
def jsOr (a b : Option String) : Option String :=
  if truthy a then a else b

/-- `a || d` where the fallback is a present string. -/
def jsOrS (a : Option String) (d : String) : String :=
  match a with
  | some s => if s = "" then d else s
  | none => d

/-- String interpolation of a possibly-absent value (template literals print
`undefined` for a missing field). -/
def jsToStr : Option String → String
  | some s => s
  | none => "undefined"

/-! ## The normalizer (per-item body of the `items.forEach` loop) -/

/-- `new Date(item.pubDate).getTime()`: a missing `pubDate` gives an invalid
date (`NaN`), otherwise the runtime's parser decides. -/
def pubEpoch (env : Env) (item : RawItem) : Option Int :=
  match item.pubDate with
  | none => none
  | some s => env.parseDate s

/-- The image-extraction chain: thumbnail, else enclosure link, else first
`src="..."` in content or description; then the feedburner/ads guard and the
deterministic placeholder fallback keyed by `item.title || uniqueId`. -/
def resolveImage (item : RawItem) (uniqueId : String) : String :=
  let i1 := if !truthy item.thumbnail && truthy item.enclosureLink
            then item.enclosureLink else item.thumbnail
  let m :=
    match item.content with
    | some c =>
        (match findImgSrc c.toList with
         | some u => some u
         | none =>
             match item.description with
             | some d => findImgSrc d.toList
             | none => none)
    | none =>
        match item.description with
        | some d => findImgSrc d.toList
        | none => none
  let i2 := if truthy i1 then i1
            else match m with
                 | some u => some u
                 | none => i1
  match i2 with
  | none => getFallbackImage (jsOrS item.title uniqueId)
  | some u =>
      if u = "" then getFallbackImage (jsOrS item.title uniqueId)
      else if strIncludes u "feedburner" || strIncludes u "ads"
      then getFallbackImage (jsOrS item.title uniqueId)
      else u

/-- One raw item to one `Article`, exactly as pushed onto `freshArticles`:
id from `item.guid || item.link || sourceName-title`, summary from the
cleanup chain, `publishedAt` from the date parse (possibly `NaN`), signals
from `item.title + ' ' + summaryClean`. -/
def normalizeItem (env : Env) (config : FeedConfig) (item : RawItem) : Article :=
  let uniqueId := jsOrS (jsOr item.guid item.link)
                        (config.sourceName ++ "-" ++ jsToStr item.title)
  let summaryClean := summaryCleanOf item.description
  let ep := pubEpoch env item
  let textContent := jsToStr item.title ++ " " ++ summaryClean
  ⟨uniqueId, jsToStr item.title, summaryClean, config.category, env.fmt ep, ep,
   jsOrS item.author config.sourceName, some (resolveImage item uniqueId),
   item.link, jsOr item.content item.description,
   checkForBreakingContext textContent, analyzeSentiment textContent⟩

/-- The fresh-articles accumulation (`results.forEach` with the
`status === 'ok'` guard): sources settle in registry order and each ok
source appends its normalized items. -/
def freshOf (env : Env) : List Article :=
  ((FEED_SOURCES.map fun src => settle (env.outcome src) src).foldl
    (fun acc r =>
      if r.status = some "ok" then acc ++ r.items.map (normalizeItem env r.config)
      else acc) [])

/-- The contribution of one source to the fresh list (zero items unless its
settled status is `"ok"`). -/
def sourceContribution (env : Env) (src : FeedConfig) : List Article :=
  let r := settle (env.outcome src) src
  if r.status = some "ok" then r.items.map (normalizeItem env r.config) else []

/-! ## Archive store: load, merge, prune, sort, save -/

/-- Step 2 of `fetchMarketNews`: the guarded archive read.  A missing value
or a `JSON.parse` failure both leave `archivedArticles = []`. -/
def loadArchive : Storage → List Article
  | Storage.absent => []
  | Storage.corrupt => []
  | Storage.stored l => l

/-- `articleMap.set(a.id, a)` on an insertion-ordered map represented as its
value list: an existing key is updated in place, a new key is appended. -/
def mapSet (m : List Article) (a : Article) : List Article :=
  if m.any (fun x => x.id == a.id)
  then m.map (fun x => if x.id == a.id then a else x)
  else m ++ [a]

/-- The id-keyed `Map` seeded with the archive and overwritten by the fresh
list, read back in insertion order (`Array.from(articleMap.values())`). -/
def buildMap (l : List Article) : List Article :=
  l.foldl mapSet []

/-- The retention predicate `a.publishedAt > cutoff`; `NaN > cutoff` is
false in JavaScript, so `none` fails the filter. -/
def withinRetention (cutoff : Int) (a : Article) : Bool :=
  match a.publishedAt with
  | some t => decide (cutoff < t)
  | none => false

/-- Stable insertion of one article into a descending-by-`publishedAt` list:
skip every earlier article that is strictly more recent, so the inserted
article lands after its equals (JavaScript's stable sort). -/
def insertByRecency (a : Article) : List Article → List Article
  | [] => [a]
  | b :: rest =>
      if a.publishedAtD < b.publishedAtD then b :: insertByRecency a rest
      else a :: b :: rest

/-- `.sort((a, b) => b.publishedAt - a.publishedAt)`: the unique stable
descending sort. -/
def sortByRecency : List Article → List Article
  | [] => []
  | a :: rest => insertByRecency a (sortByRecency rest)

/-- Steps 3 and 4 of `fetchMarketNews`: merge (archive seeded first, fresh
overwrites), 7-day retention filter, descending sort. -/
def mergeAndPrune (now : Int) (archived fresh : List Article) : List Article :=
  sortByRecency ((buildMap (archived ++ fresh)).filter
    (withinRetention (now - ONE_WEEK_MS)))

/-- The merged list one call computes from its environment and storage. -/
def mergedOf (env : Env) (st : Storage) : List Article :=
  mergeAndPrune env.now (loadArchive st) (freshOf env)

/-- Step 5 of `fetchMarketNews`: `setItem` inside a `try`, whose `catch`
retries with `mergedArticles.slice(0, 200)` only when the list has more than
200 articles.  `none` is an exception escaping the inner `catch` (the retry
`setItem` itself threw); otherwise the resulting storage state. -/
def saveStep (env : Env) (st : Storage) (merged : List Article) : Option Storage :=
  if env.writeOk merged then some (Storage.stored merged)
  else if 200 < merged.length then
    (if env.writeOk (merged.take 200)
     then some (Storage.stored (merged.take 200))
     else none)
  else some st

/-- The top-level `catch` block:
`const stored = localStorage.getItem(STORAGE_KEY); return stored ? JSON.parse(stored) : []`.
The read is not guarded, so a corrupt archive makes `JSON.parse` throw out of
the `catch` and the call rejects. -/
def fallbackReturn : Storage → Except JsError (List Article)
  | Storage.absent => Except.ok []
  | Storage.corrupt => Except.error JsError.parseError
  | Storage.stored l => Except.ok l

/-- `fetchMarketNews()`: the whole pipeline on one environment and one
storage state, returning the settled promise value (or the escaped
exception) together with the final storage state. -/
def fetchMarketNews (env : Env) (st : Storage) : Except JsError (List Article) × Storage :=
  let merged := mergedOf env st
  match saveStep env st merged with
  | some stNew => (Except.ok merged, stNew)
  | none => (fallbackReturn st, st)

/-! ## Concrete inputs used by counterexamples and witnesses -/

deriving instance DecidableEq for Except

/-- A fixed "now" (epoch milliseconds) for concrete scenarios. -/
def tNOW : Int := 1760000000000

/-- One synthetic raw item with a distinct guid; empty title, no
description, a parseable date. -/
def bigItem (i : Nat) : RawItem :=
  ⟨some "", none, none, some "d", none, some ("g" ++ Nat.repr i), none, none, none⟩

/-- 201 distinct synthetic items: enough to trip the over-200 retry of the
save step. -/
def bigItems : List RawItem := (List.range 201).map bigItem

/-- Environment in which the first source returns 201 valid items, every
other source fails, every date parses to `tNOW`, and every storage write
fails (persistent quota error). -/
def envBig : Env :=
  ⟨fun src => if src.priority = 1 then FetchOutcome.ok (some "ok") (some bigItems)
              else FetchOutcome.fail,
   fun _ => some tNOW, tNOW, fun _ => "", fun _ => false⟩

/-- An archived article 10 days old: outside the 7-day retention window at
`tNOW`. -/
def staleArticle : Article :=
  ⟨"A", "Old headline", "", "Markets", "", some (tNOW - 10 * 86400000), "X",
   none, none, none, false, Sentiment.Neutral⟩

/-- The raw item of the spec's normalization scenario. -/
def itemC7 : RawItem :=
  ⟨some "EUR/USD soars on hawkish Fed", some "<p>Markets rallied &nbsp;today</p>",
   none, some "2024-03-12T10:00:00Z", some "https://x.com/a", none, none, none, none⟩

/-- Environment for the normalization scenario: the first source returns
exactly the scenario item with status ok, the rest fail; the scenario date
parses to its epoch. -/
def envC7 : Env :=
  ⟨fun src => if src.priority = 1 then FetchOutcome.ok (some "ok") (some [itemC7])
              else FetchOutcome.fail,
   fun s => if s = "2024-03-12T10:00:00Z" then some 1710237600000 else none,
   1710240000000, fun _ => "", fun _ => true⟩

/-- A valid item delivered by source #1 in the fault-isolation scenario. -/
def item1 : RawItem :=
  ⟨some "alpha", none, none, some "d", none, some "i1", none, none, none⟩

/-- A valid item delivered by source #4 in the fault-isolation scenario. -/
def item4 : RawItem :=
  ⟨some "beta", none, none, some "d", none, some "i4", none, none, none⟩

/-- The spec's fault-isolation scenario: sources #2 and #3 fail (timeout,
malformed payload — both reject and are caught per source), sources #1 and
#4 succeed with one item each; writes succeed. -/
def envScn : Env :=
  ⟨fun src =>
     if src.priority = 1 then FetchOutcome.ok (some "ok") (some [item1])
     else if src.priority = 4 then FetchOutcome.ok (some "ok") (some [item4])
     else FetchOutcome.fail,
   fun _ => some tNOW, tNOW, fun _ => "", fun _ => true⟩

/-- Environment in which every source fails and writes succeed. -/
def envOkSave : Env :=
  ⟨fun _ => FetchOutcome.fail, fun _ => none, tNOW, fun _ => "", fun _ => true⟩

/-- A sibling item with a well-formed date. -/
def goodItem : RawItem :=
  ⟨some "good news", none, none, some "d", none, some "good", none, none, none⟩

/-- A sibling item whose `pubDate` does not parse. -/
def badItem : RawItem :=
  ⟨some "bad news", none, none, some "zzz", none, some "bad", none, none, none⟩

/-- Environment for the bad-date scenario: the first source returns a
well-dated item and a malformed-date item together; only `"d"` parses. -/
def envW8 : Env :=
  ⟨fun src => if src.priority = 1 then FetchOutcome.ok (some "ok") (some [goodItem, badItem])
              else FetchOutcome.fail,
   fun s => if s = "d" then some tNOW else none,
   tNOW, fun _ => "", fun _ => true⟩

/-- The first registry entry (ForexLive), spelled out. -/
def fxSource : FeedConfig :=
  ⟨"https://www.forexlive.com/feed", "Sentiment", "ForexLive", 1⟩

/-- Archived copy of article "A" (stale fields, within retention). -/
def artA1 : Article :=
  ⟨"A", "old A", "", "Markets", "", some (tNOW - 1000), "auth",
   none, none, none, false, Sentiment.Neutral⟩

/-- Archived article "B", not re-fetched, within retention. -/
def artB : Article :=
  ⟨"B", "keep B", "", "Markets", "", some (tNOW - 2000), "auth",
   none, none, none, false, Sentiment.Neutral⟩

/-- Fresh copy of article "A" with updated fields. -/
def artA2 : Article :=
  ⟨"A", "new A", "", "Markets", "", some tNOW, "auth",
   none, none, none, false, Sentiment.Bullish⟩

/-- Archived article "X" within retention. -/
def goodX : Article :=
  ⟨"X", "old X", "", "Markets", "", some (tNOW - 1000), "auth",
   none, none, none, false, Sentiment.Neutral⟩

/-- A re-fetched copy of "X" whose date failed to parse (`NaN`
`publishedAt`). -/
def badX : Article :=
  ⟨"X", "new X", "", "Markets", "", none, "auth",
   none, none, none, false, Sentiment.Neutral⟩

/-! ## Derived predicates used by the theorems -/

/-- The descending order the output is sorted in: the left article is at
least as recent. -/
def Recency (a b : Article) : Prop := b.publishedAtD ≤ a.publishedAtD

/-- The sortedness invariant of the persisted archive: any stored article
list is pairwise descending by `publishedAt`.  It holds of every storage
state the pipeline itself can produce. -/
def SortedStorage : Storage → Prop
  | Storage.stored l => l.Pairwise Recency
  | _ => True

/-- Modelled from the spec: the placeholder index of §4.1 — "accumulate
`hash = char_code + ((hash << 5) - hash)` per character, then reduce the
absolute value modulo palette size" (`<<` is the source language's 32-bit
shift). -/
def specPlaceholderIndex (seed : String) : Nat :=
  (seed.toList.foldl (fun h c => (c.toNat : Int) + (toInt32 (h * 32) - h)) 0).natAbs
    % FALLBACK_IMAGES.length

/-! ## Helper lemmas about the id-keyed map -/

theorem mem_of_mem_mapSet {m : List Article} {a c : Article} (h : c ∈ mapSet m a) :
    c = a ∨ (c ∈ m ∧ c.id ≠ a.id) := by
  unfold mapSet at h
  by_cases hk : m.any (fun x => x.id == a.id)
  · rw [if_pos hk] at h
    rcases List.mem_map.1 h with ⟨x, hx, hxe⟩
    by_cases hid : x.id == a.id
    · left
      rw [if_pos hid] at hxe
      exact hxe.symm
    · right
      rw [if_neg hid] at hxe
      subst hxe
      exact ⟨hx, by simpa using hid⟩
  · rw [if_neg hk] at h
    rcases List.mem_append.1 h with hc | hc
    · right
      refine ⟨hc, ?_⟩
      intro he
      exact hk (List.any_eq_true.2 ⟨c, hc, by simpa using he⟩)
    · left
      simpa using hc

theorem mem_mapSet_of_ne {m : List Article} {a c : Article}
    (hc : c ∈ m) (hne : c.id ≠ a.id) : c ∈ mapSet m a := by
  unfold mapSet
  by_cases hk : m.any (fun x => x.id == a.id)
  · rw [if_pos hk]
    refine List.mem_map.2 ⟨c, hc, ?_⟩
    rw [if_neg (by simpa using hne)]
  · rw [if_neg hk]
    exact List.mem_append_left _ hc

theorem self_mem_mapSet (m : List Article) (a : Article) : a ∈ mapSet m a := by
  unfold mapSet
  by_cases hk : m.any (fun x => x.id == a.id)
  · rw [if_pos hk]
    rcases List.any_eq_true.1 hk with ⟨x, hx, hxe⟩
    refine List.mem_map.2 ⟨x, hx, ?_⟩
    rw [if_pos hxe]
  · rw [if_neg hk]
    exact List.mem_append_right _ (List.mem_singleton.2 rfl)

theorem keys_nodup_mapSet {m : List Article} {a : Article}
    (h : (m.map Article.id).Nodup) : ((mapSet m a).map Article.id).Nodup := by
  unfold mapSet
  by_cases hk : m.any (fun x => x.id == a.id)
  · rw [if_pos hk]
    have he : (m.map (fun x => if x.id == a.id then a else x)).map Article.id
        = m.map Article.id := by
      rw [List.map_map]
      refine List.map_congr_left ?_
      intro x _
      by_cases hx : x.id == a.id
      · simp only [Function.comp_apply, if_pos hx]
        exact (eq_of_beq hx).symm
      · simp only [Function.comp_apply, if_neg hx]
    rw [he]
    exact h
  · rw [if_neg hk, List.map_append]
    refine List.Nodup.append h (by simp) ?_
    intro x hx hx1
    rcases List.mem_map.1 hx with ⟨y, hy, hye⟩
    have : x = a.id := by simpa using hx1
    exact hk (List.any_eq_true.2 ⟨y, hy, by simp [hye, this]⟩)

theorem foldl_mapSet_keep {l : List Article} {c : Article} :
    ∀ {M : List Article}, c ∈ M → (∀ b ∈ l, b.id ≠ c.id) → c ∈ l.foldl mapSet M := by
  induction l with
  | nil => intro M hc _; simpa using hc
  | cons x l ih =>
      intro M hc hids
      simp only [List.foldl_cons]
      exact ih (mem_mapSet_of_ne hc fun he => hids x (by simp) he.symm)
        (fun b hb => hids b (by simp [hb]))

theorem foldl_mapSet_src {l : List Article} {c : Article} :
    ∀ {M : List Article}, c ∈ l.foldl mapSet M → (∀ b ∈ l, b.id ≠ c.id) → c ∈ M := by
  induction l with
  | nil => intro M hc _; simpa using hc
  | cons x l ih =>
      intro M hc hids
      simp only [List.foldl_cons] at hc
      rcases mem_of_mem_mapSet (ih hc fun b hb => hids b (by simp [hb])) with he | ⟨hm, _⟩
      · exact absurd (congrArg Article.id he.symm) (hids x (by simp))
      · exact hm

theorem foldl_mapSet_fresh_wins {l : List Article} {c : Article} :
    ∀ {M : List Article}, c ∈ l.foldl mapSet M → (∃ b ∈ l, b.id = c.id) → c ∈ l := by
  induction l with
  | nil => intro M _ hex; simp at hex
  | cons x l ih =>
      intro M hc hex
      by_cases htl : ∃ b ∈ l, b.id = c.id
      · exact List.mem_cons_of_mem x (ih hc htl)
      · have hids : ∀ b ∈ l, b.id ≠ c.id := by
          intro b hb he
          exact htl ⟨b, hb, he⟩
        simp only [List.foldl_cons] at hc
        rcases mem_of_mem_mapSet (foldl_mapSet_src hc hids) with he | ⟨_, hne⟩
        · exact he ▸ List.mem_cons_self x l
        · rcases hex with ⟨b, hb, hbe⟩
          rcases List.mem_cons.1 hb with rfl | hb
          · exact absurd hbe.symm hne
          · exact absurd hbe (hids b hb)

theorem foldl_mapSet_self {l : List Article} {a : Article} :
    (l.map Article.id).Nodup → a ∈ l → ∀ M : List Article, a ∈ l.foldl mapSet M := by
  induction l with
  | nil => intro _ h; simp at h
  | cons x l ih =>
      intro hnd ha M
      simp only [List.map_cons, List.nodup_cons] at hnd
      rcases List.mem_cons.1 ha with rfl | ha
      · simp only [List.foldl_cons]
        refine foldl_mapSet_keep (self_mem_mapSet M a) ?_
        intro b hb he
        exact hnd.1 (he ▸ List.mem_map_of_mem Article.id hb)
      · simp only [List.foldl_cons]
        exact ih hnd.2 ha (mapSet M x)

theorem foldl_mapSet_keys_nodup {l : List Article} :
    ∀ {M : List Article}, (M.map Article.id).Nodup →
      ((l.foldl mapSet M).map Article.id).Nodup := by
  induction l with
  | nil => intro M h; simpa using h
  | cons x l ih =>
      intro M h
      simp only [List.foldl_cons]
      exact ih (keys_nodup_mapSet h)

theorem mem_buildMap_self {l : List Article} {a : Article}
    (hnd : (l.map Article.id).Nodup) (ha : a ∈ l) : a ∈ buildMap l :=
  foldl_mapSet_self hnd ha []

theorem buildMap_keys_nodup (l : List Article) :
    ((buildMap l).map Article.id).Nodup :=
  foldl_mapSet_keys_nodup (by simp)

theorem buildMap_append (l₁ l₂ : List Article) :
    buildMap (l₁ ++ l₂) = l₂.foldl mapSet (buildMap l₁) :=
  List.foldl_append mapSet [] l₁ l₂

/-! ## Helper lemmas about the stable sort -/

theorem insertByRecency_perm (a : Article) (l : List Article) :
    List.Perm (insertByRecency a l) (a :: l) := by
  induction l with
  | nil => rfl
  | cons b rest ih =>
      unfold insertByRecency
      by_cases h : a.publishedAtD < b.publishedAtD
      · rw [if_pos h]
        exact (ih.cons b).trans (List.Perm.swap a b rest)
      · rw [if_neg h]

theorem sortByRecency_perm (l : List Article) : List.Perm (sortByRecency l) l := by
  induction l with
  | nil => rfl
  | cons a rest ih =>
      unfold sortByRecency
      exact (insertByRecency_perm a (sortByRecency rest)).trans (ih.cons a)

theorem mem_sortByRecency {a : Article} {l : List Article} :
    a ∈ sortByRecency l ↔ a ∈ l :=
  (sortByRecency_perm l).mem_iff

theorem pairwise_insertByRecency {a : Article} {l : List Article}
    (h : l.Pairwise Recency) : (insertByRecency a l).Pairwise Recency := by
  induction l with
  | nil => simp [insertByRecency, List.pairwise_singleton]
  | cons b rest ih =>
      unfold insertByRecency
      rcases List.pairwise_cons.1 h with ⟨hb, hrest⟩
      by_cases hlt : a.publishedAtD < b.publishedAtD
      · rw [if_pos hlt]
        refine List.pairwise_cons.2 ⟨?_, ih hrest⟩
        intro y hy
        rcases List.mem_cons.1 ((insertByRecency_perm a rest).mem_iff.1 hy) with rfl | hyr
        · exact le_of_lt hlt
        · exact hb y hyr
      · rw [if_neg hlt]
        refine List.pairwise_cons.2 ⟨?_, h⟩
        intro y hy
        rcases List.mem_cons.1 hy with rfl | hyr
        · exact le_of_not_lt hlt
        · exact le_trans (hb y hyr) (le_of_not_lt hlt)

theorem pairwise_sortByRecency (l : List Article) :
    (sortByRecency l).Pairwise Recency := by
  induction l with
  | nil => exact List.Pairwise.nil
  | cons a rest ih => exact pairwise_insertByRecency ih

/-! ## Helper lemmas about merge-and-prune and the fresh list -/

theorem mem_mergeAndPrune {now : Int} {ar fr : List Article} {c : Article} :
    c ∈ mergeAndPrune now ar fr ↔
      c ∈ buildMap (ar ++ fr) ∧ withinRetention (now - ONE_WEEK_MS) c = true := by
  unfold mergeAndPrune
  rw [mem_sortByRecency, List.mem_filter]

theorem withinRetention_spec {cutoff : Int} {a : Article}
    (h : withinRetention cutoff a = true) :
    a.publishedAt = some a.publishedAtD ∧ cutoff < a.publishedAtD := by
  unfold withinRetention at h
  cases hp : a.publishedAt with
  | none => rw [hp] at h; exact absurd h (by simp)
  | some t =>
      rw [hp] at h
      have ht : cutoff < t := by simpa using h
      have hd : a.publishedAtD = t := by
        unfold Article.publishedAtD
        rw [hp]
        rfl
      exact ⟨by rw [hd], by rw [hd]; exact ht⟩


theorem foldl_fresh_flatten (env : Env) (rs : List SettledFeed) :
    ∀ init : List Article,
      rs.foldl
        (fun acc r =>
          if r.status = some "ok" then acc ++ r.items.map (normalizeItem env r.config)
          else acc) init
      = init ++ (rs.map fun r =>
          if r.status = some "ok" then r.items.map (normalizeItem env r.config)
          else []).flatten := by
  induction rs with
  | nil => intro init; simp
  | cons r rs ih =>
      intro init
      simp only [List.foldl_cons, List.map_cons, List.flatten_cons]
      by_cases h : r.status = some "ok"
      · rw [if_pos h, if_pos h, ih, List.append_assoc]
      · rw [if_neg h, if_neg h, ih, List.nil_append]

theorem freshOf_eq_flatten (env : Env) :
    freshOf env = (FEED_SOURCES.map (sourceContribution env)).flatten := by
  unfold freshOf
  rw [foldl_fresh_flatten env _ []]
  rw [List.nil_append, List.map_map]
  rfl

theorem settle_config (o : FetchOutcome) (c : FeedConfig) : (settle o c).config = c := by
  cases o <;> rfl

theorem saveStep_some_cases {env : Env} {st : Storage} {merged : List Article}
    {stN : Storage} (h : saveStep env st merged = some stN) :
    stN = Storage.stored merged ∨ stN = Storage.stored (merged.take 200) ∨ stN = st := by
  unfold saveStep at h
  by_cases h1 : env.writeOk merged
  · rw [if_pos h1] at h
    exact Or.inl (Option.some.inj h).symm
  · rw [if_neg h1] at h
    by_cases h2 : 200 < merged.length
    · rw [if_pos h2] at h
      by_cases h3 : env.writeOk (merged.take 200)
      · rw [if_pos h3] at h
        exact Or.inr (Or.inl (Option.some.inj h).symm)
      · rw [if_neg h3] at h
        exact Option.noConfusion h
    · rw [if_neg h2] at h
      exact Or.inr (Or.inr (Option.some.inj h).symm)

theorem mergedOf_pairwise (env : Env) (st : Storage) :
    (mergedOf env st).Pairwise Recency := by
  unfold mergedOf mergeAndPrune
  exact pairwise_sortByRecency _

/-- Claim C1 (amended): whenever the stored archive value is not corrupt,
`fetchMarketNews` settles with a list for every environment — the body's
only escaping exception (a failing truncated retry write) is caught by the
top-level handler, which returns the stored archive or `[]` when absent.
(As frozen, the claim fails: with a corrupt archive and a throwing body the
unguarded `JSON.parse` inside the `catch` block rejects the call.) -/
theorem vft_c1_no_throw (env : Env) (st : Storage) (h : st ≠ Storage.corrupt) :
    ∃ l, (fetchMarketNews env st).1 = Except.ok l := by
  cases hs : saveStep env st (mergedOf env st) with
  | some stN => exact ⟨mergedOf env st, by simp [fetchMarketNews, hs]⟩
  | none =>
      cases st with
      | corrupt => exact absurd rfl h
      | absent => exact ⟨[], by simp [fetchMarketNews, hs, fallbackReturn]⟩
      | stored l => exact ⟨l, by simp [fetchMarketNews, hs, fallbackReturn]⟩

theorem vft_c1_witness : ∃ l, (fetchMarketNews envOkSave Storage.absent).1 = Except.ok l :=
  vft_c1_no_throw envOkSave Storage.absent (by decide)

/-- Claim C2 (amended): the retry happens only for a merged list of more
than 200 articles, persisting its 200 most-recent; the caller receives the
full untruncated merged list whenever the first write succeeds, the list
has at most 200 items (the failure is swallowed without retry), or the
retry succeeds; if the retry itself fails, the escaped exception makes the
call return the top-level fallback instead of the merged list. -/
theorem vft_c2_persistence (env : Env) (st : Storage) :
    (env.writeOk (mergedOf env st) = true →
      fetchMarketNews env st
        = (Except.ok (mergedOf env st), Storage.stored (mergedOf env st)))
    ∧ (env.writeOk (mergedOf env st) = false → (mergedOf env st).length ≤ 200 →
      fetchMarketNews env st = (Except.ok (mergedOf env st), st))
    ∧ (env.writeOk (mergedOf env st) = false → 200 < (mergedOf env st).length →
      env.writeOk ((mergedOf env st).take 200) = true →
      fetchMarketNews env st
        = (Except.ok (mergedOf env st), Storage.stored ((mergedOf env st).take 200)))
    ∧ (env.writeOk (mergedOf env st) = false → 200 < (mergedOf env st).length →
      env.writeOk ((mergedOf env st).take 200) = false →
      fetchMarketNews env st = (fallbackReturn st, st)) := by
  refine ⟨fun h1 => ?_, fun h1 h2 => ?_, fun h1 h2 h3 => ?_, fun h1 h2 h3 => ?_⟩
  · simp [fetchMarketNews, saveStep, h1]
  · simp [fetchMarketNews, saveStep, h1, show ¬(200 < (mergedOf env st).length) from Nat.not_lt.mpr h2]
  · simp [fetchMarketNews, saveStep, h1, h2, h3]
  · simp [fetchMarketNews, saveStep, h1, h2, h3]

theorem vft_c2_witness :
    fetchMarketNews envOkSave Storage.absent
      = (Except.ok (mergedOf envOkSave Storage.absent),
         Storage.stored (mergedOf envOkSave Storage.absent)) :=
  (vft_c2_persistence envOkSave Storage.absent).1 rfl

/-- Claim C3: per-source fault isolation.  Whenever the persistence write
succeeds, the call returns the merged list built from the fresh articles;
the fresh list is exactly the concatenation of the per-source
contributions in registry order, and a source whose settled status is not
`"ok"` (rejected fetch, parse failure, or non-ok status) contributes the
empty list — it cannot empty the result or fail the call. -/
theorem vft_c3_isolation (env : Env) (st : Storage)
    (hw : env.writeOk (mergedOf env st) = true) :
    (fetchMarketNews env st).1 = Except.ok (mergedOf env st)
    ∧ freshOf env = (FEED_SOURCES.map (sourceContribution env)).flatten
    ∧ ∀ src : FeedConfig, (settle (env.outcome src) src).status ≠ some "ok" →
        sourceContribution env src = [] := by
  refine ⟨by simp [fetchMarketNews, saveStep, hw], freshOf_eq_flatten env, ?_⟩
  intro src h
  simp only [sourceContribution]
  rw [if_neg h]

theorem vft_c3_witness :
    ((fetchMarketNews envScn Storage.absent).1 = Except.ok (mergedOf envScn Storage.absent)
    ∧ freshOf envScn = (FEED_SOURCES.map (sourceContribution envScn)).flatten
    ∧ ∀ src : FeedConfig, (settle (envScn.outcome src) src).status ≠ some "ok" →
        sourceContribution envScn src = [])
    ∧ (freshOf envScn).map Article.id = ["i1", "i4"] :=
  ⟨vft_c3_isolation envScn Storage.absent rfl, rfl⟩

/-- Claim C5 (amended): every article in the list produced by a completed
aggregation (one whose save step does not throw) is strictly inside the
7-day retention window of the call's `now`; the 10-day-old archived article
of the spec scenario is therefore absent.  (As frozen, the claim fails: the
top-level fallback path returns the stored archive verbatim, which may hold
articles that have since aged out of the window.) -/
theorem vft_c5_retention (env : Env) (st : Storage)
    (h : saveStep env st (mergedOf env st) ≠ none) :
    ∀ l, (fetchMarketNews env st).1 = Except.ok l →
      ∀ a ∈ l, env.now - ONE_WEEK_MS < a.publishedAtD := by
  intro l hl a ha
  rcases Option.ne_none_iff_exists'.mp h with ⟨stN, hs⟩
  have hres : (fetchMarketNews env st).1 = Except.ok (mergedOf env st) := by
    simp [fetchMarketNews, hs]
  have hlm : l = mergedOf env st := (Except.ok.inj (hres ▸ hl)).symm
  subst hlm
  unfold mergedOf at ha
  exact (withinRetention_spec (mem_mergeAndPrune.mp ha).2).2

theorem vft_c5_witness :
    saveStep envScn Storage.absent (mergedOf envScn Storage.absent) ≠ none
    ∧ ∀ l, (fetchMarketNews envScn Storage.absent).1 = Except.ok l →
        ∀ a ∈ l, envScn.now - ONE_WEEK_MS < a.publishedAtD :=
  ⟨by decide, vft_c5_retention envScn Storage.absent (by decide)⟩

/-- Claim C6: for every environment and every storage state satisfying the
archive sortedness invariant (which the pipeline preserves, second
conjunct), any list the call returns is pairwise — hence adjacently —
descending by `publishedAt`, regardless of the per-source outcomes. -/
theorem vft_c6_sorted (env : Env) (st : Storage) (h : SortedStorage st) :
    (∀ l, (fetchMarketNews env st).1 = Except.ok l → l.Pairwise Recency)
    ∧ SortedStorage (fetchMarketNews env st).2 := by
  cases hs : saveStep env st (mergedOf env st) with
  | some stN =>
      have hres : fetchMarketNews env st = (Except.ok (mergedOf env st), stN) := by
        simp [fetchMarketNews, hs]
      constructor
      · intro l hl
        rw [hres] at hl
        rw [← Except.ok.inj hl]
        exact mergedOf_pairwise env st
      · rw [hres]
        rcases saveStep_some_cases hs with rfl | rfl | rfl
        · exact mergedOf_pairwise env st
        · exact (mergedOf_pairwise env st).sublist (List.take_sublist 200 _)
        · exact h
  | none =>
      have hres : fetchMarketNews env st = (fallbackReturn st, st) := by
        simp [fetchMarketNews, hs]
      constructor
      · intro l hl
        rw [hres] at hl
        cases st with
        | absent =>
            rw [← Except.ok.inj hl]
            exact List.Pairwise.nil
        | corrupt => exact Except.noConfusion hl
        | stored ls =>
            rw [← Except.ok.inj hl]
            exact h
      · rw [hres]
        exact h

theorem vft_c6_witness :
    (∀ l, (fetchMarketNews envScn Storage.absent).1 = Except.ok l → l.Pairwise Recency)
    ∧ SortedStorage (fetchMarketNews envScn Storage.absent).2 :=
  vft_c6_sorted envScn Storage.absent trivial

/-- Claim C9: `getFallbackImage` returns exactly the palette entry at the
spec's rolling-hash index (which is always in range), and the choice is a
pure function of the seed, hence identical across runs for the same seed. -/
theorem vft_c9_placeholder (seed : String) :
    getFallbackImage seed = FALLBACK_IMAGES.getD (specPlaceholderIndex seed) ""
    ∧ specPlaceholderIndex seed < FALLBACK_IMAGES.length
    ∧ ∀ s2 : String, s2 = seed → getFallbackImage s2 = getFallbackImage seed := by
  refine ⟨rfl, ?_, fun s2 h => h ▸ rfl⟩
  exact Nat.mod_lt _ (by decide)

theorem vft_c9_witness :
    getFallbackImage "EUR/USD soars on hawkish Fed"
      = FALLBACK_IMAGES.getD (specPlaceholderIndex "EUR/USD soars on hawkish Fed") ""
    ∧ specPlaceholderIndex "EUR/USD soars on hawkish Fed" < FALLBACK_IMAGES.length
    ∧ ∀ s2 : String, s2 = "EUR/USD soars on hawkish Fed" →
        getFallbackImage s2 = getFallbackImage "EUR/USD soars on hawkish Fed" :=
  vft_c9_placeholder "EUR/USD soars on hawkish Fed"

/-- Claim C4: merge semantics.  For any archived list with distinct ids and
any fresh list: the merged result has pairwise-distinct ids; every merged
article whose id occurs in the fresh list is itself a fresh article (the
fresh copy's fields win); and every archived article whose id is absent
from the fresh list and which passes retention is preserved in the merged
result. -/
theorem vft_c4_merge (now : Int) (archived fresh : List Article)
    (hnd : (archived.map Article.id).Nodup) :
    ((mergeAndPrune now archived fresh).map Article.id).Nodup
    ∧ (∀ c ∈ mergeAndPrune now archived fresh,
        (∃ b ∈ fresh, b.id = c.id) → c ∈ fresh)
    ∧ (∀ a ∈ archived, (∀ b ∈ fresh, b.id ≠ a.id) →
        withinRetention (now - ONE_WEEK_MS) a = true →
        a ∈ mergeAndPrune now archived fresh) := by
  refine ⟨?_, ?_, ?_⟩
  · have h1 := buildMap_keys_nodup (archived ++ fresh)
    have h2 : (((buildMap (archived ++ fresh)).filter
        (withinRetention (now - ONE_WEEK_MS))).map Article.id).Nodup :=
      h1.sublist ((List.filter_sublist _).map Article.id)
    have h3 := (sortByRecency_perm ((buildMap (archived ++ fresh)).filter
        (withinRetention (now - ONE_WEEK_MS)))).map Article.id
    unfold mergeAndPrune
    exact (h3.nodup_iff).mpr h2
  · intro c hc hex
    have hm := (mem_mergeAndPrune.mp hc).1
    rw [buildMap_append] at hm
    exact foldl_mapSet_fresh_wins hm hex
  · intro a ha hno hret
    refine mem_mergeAndPrune.mpr ⟨?_, hret⟩
    rw [buildMap_append]
    exact foldl_mapSet_keep (mem_buildMap_self hnd ha) hno

theorem vft_c4_witness :
    artB ∈ mergeAndPrune tNOW [artA1, artB] [artA2] :=
  (vft_c4_merge tNOW [artA1, artB] [artA2] (by decide)).2.2 artB (by decide)
    (by decide) (by decide)

/-- Claim C10 (implicit): a fresh item whose date failed to parse enters
the merge with a `NaN` (`none`) `publishedAt` and overwrites the archived
copy of the same id, which then fails retention: if every fresh article
with id `x` carries a `none` `publishedAt` and at least one such fresh
article exists, the merged result holds no article with id `x` — even
though, with no fresh article of that id, a retained archived copy would
have been preserved (second conjunct). -/
theorem vft_c10_nan_overwrite (now : Int) (archived fresh : List Article) (x : String)
    (hFresh : ∃ b ∈ fresh, b.id = x)
    (hAll : ∀ c ∈ fresh, c.id = x → c.publishedAt = none) :
    (∀ c ∈ mergeAndPrune now archived fresh, c.id ≠ x)
    ∧ (∀ a ∈ archived, (archived.map Article.id).Nodup →
        withinRetention (now - ONE_WEEK_MS) a = true →
        a ∈ mergeAndPrune now archived []) := by
  constructor
  · intro c hc he
    rcases mem_mergeAndPrune.mp hc with ⟨hmem, hret⟩
    rw [buildMap_append] at hmem
    have hcf : c ∈ fresh := by
      refine foldl_mapSet_fresh_wins hmem ?_
      rcases hFresh with ⟨b, hb, hbe⟩
      exact ⟨b, hb, by rw [hbe, he]⟩
    have hnan := hAll c hcf he
    rcases withinRetention_spec hret with ⟨hsome, _⟩
    rw [hnan] at hsome
    exact Option.noConfusion hsome
  · intro a ha hnd hret
    refine mem_mergeAndPrune.mpr ⟨?_, hret⟩
    rw [List.append_nil]
    exact mem_buildMap_self hnd ha

theorem vft_c10_witness :
    (∀ c ∈ mergeAndPrune tNOW [goodX] [badX], c.id ≠ "X")
    ∧ (∀ a ∈ [goodX], ([goodX].map Article.id).Nodup →
        withinRetention (tNOW - ONE_WEEK_MS) a = true →
        a ∈ mergeAndPrune tNOW [goodX] []) :=
  vft_c10_nan_overwrite tNOW [goodX] [badX] "X" (by decide) (by decide)

/-- Claim C8: per-item bad-date isolation.  Normalization is total and
simply records the failed parse as a `NaN` (`none`) `publishedAt` (second
conjunct, an equation — no exception propagates); no article with a `NaN`
`publishedAt` survives into the merged result (first conjunct); and every
item of an ok source — bad-dated siblings included — is normalized into
the fresh list (third conjunct). -/
theorem vft_c8_bad_date (env : Env) (st : Storage) :
    (∀ a ∈ mergedOf env st, a.publishedAt ≠ none)
    ∧ (∀ config : FeedConfig, ∀ item : RawItem,
        (normalizeItem env config item).publishedAt = pubEpoch env item)
    ∧ (∀ src ∈ FEED_SOURCES, (settle (env.outcome src) src).status = some "ok" →
        ∀ item ∈ (settle (env.outcome src) src).items,
          normalizeItem env src item ∈ freshOf env) := by
  refine ⟨?_, fun config item => rfl, ?_⟩
  · intro a ha hnone
    unfold mergedOf at ha
    rcases withinRetention_spec (mem_mergeAndPrune.mp ha).2 with ⟨hsome, _⟩
    rw [hnone] at hsome
    exact Option.noConfusion hsome
  · intro src hsrc hok item hitem
    rw [freshOf_eq_flatten]
    refine List.mem_flatten.mpr ⟨sourceContribution env src,
      List.mem_map_of_mem _ hsrc, ?_⟩
    simp only [sourceContribution]
    rw [if_pos hok, settle_config]
    exact List.mem_map_of_mem _ hitem

theorem vft_c8_witness :
    (∀ a ∈ mergedOf envW8 Storage.absent, a.publishedAt ≠ none)
    ∧ (normalizeItem envW8 fxSource badItem).publishedAt = none
    ∧ normalizeItem envW8 fxSource goodItem ∈ freshOf envW8 :=
  ⟨(vft_c8_bad_date envW8 Storage.absent).1,
   ((vft_c8_bad_date envW8 Storage.absent).2.1 fxSource badItem).trans rfl,
   (vft_c8_bad_date envW8 Storage.absent).2.2 fxSource (by decide) rfl goodItem (by decide)⟩

/-- Claim C7 counterexample: on the spec's scenario item the produced
summary is `"Markets rallied  today..."` — the `&nbsp;` decodes to a space
next to the literal space (two spaces) and the `'...'` marker is appended
even though 250 characters did not truncate — not the claimed
`"Markets rallied today"`. -/
theorem vft_c7_counterexample :
    (freshOf envC7).map Article.summary = ["Markets rallied  today..."]
    ∧ "Markets rallied  today..." ≠ "Markets rallied today" :=
  ⟨rfl, by decide⟩

/-- Claim C7 (amended): the scenario source yields exactly one article with
sentiment Bullish, the breaking flag set, id equal to the link (no guid
given), and summary `"Markets rallied  today..."`: tags stripped and the
entity decoded (leaving the double space), with the ellipsis marker
appended unconditionally. -/
theorem vft_c7_scenario :
    (freshOf envC7).length = 1
    ∧ (freshOf envC7).map Article.sentiment = [Sentiment.Bullish]
    ∧ (freshOf envC7).map Article.isBreaking = [true]
    ∧ (freshOf envC7).map Article.summary = ["Markets rallied  today..."]
    ∧ (freshOf envC7).map Article.id = ["https://x.com/a"] :=
  ⟨rfl, rfl, rfl, rfl, rfl⟩

/-- Claim C1 counterexample: with a corrupt archive, failing writes and 201
fresh articles (so the truncated retry also throws), the call rejects with
the `JSON.parse` error instead of returning a list. -/
theorem vft_c1_counterexample :
    (fetchMarketNews envBig Storage.corrupt).1 = Except.error JsError.parseError := by
  decide!

/-- Claim C2 counterexample: the write of the 201-article merged list
fails, the truncated retry also fails, and the call returns the previously
stored one-article archive — not the full merged list (length 201). -/
theorem vft_c2_counterexample :
    envBig.writeOk (mergedOf envBig (Storage.stored [staleArticle])) = false
    ∧ (fetchMarketNews envBig (Storage.stored [staleArticle])).1
        = Except.ok [staleArticle]
    ∧ (mergedOf envBig (Storage.stored [staleArticle])).length = 201 := by
  decide!

/-- Claim C5 counterexample: on the fallback path the call returns the
stored archive verbatim, here a single article 10 days old — strictly
outside the 7-day retention window of the call's `now`. -/
theorem vft_c5_counterexample :
    (fetchMarketNews envBig (Storage.stored [staleArticle])).1
        = Except.ok [staleArticle]
    ∧ staleArticle.publishedAtD < envBig.now - ONE_WEEK_MS := by
  decide!
